import Mathlib

/-!
Verification of the inclusive-assistant demo backend.

The development embeds, faithfully to the source:
- the index calculator (`app/services/indices.py`),
- the recommendation engine (`app/services/recommendations.py`),
- the session scoring pipeline (`finish_block` in `app/main.py`),
- the in-memory board relay (`board_ws` in `app/main.py`), modelled as a
  state machine over the two module-level dictionaries `board_connections`
  and `board_states` (Python dictionaries preserve insertion order, so each
  one is modelled as an association list; `d[k] = v` on a present key maps
  over the list, and a fresh key is appended).

Real-valued quantities (Python floats) are modelled as rationals.
-/

/-- Clamp a scalar into the unit interval, written min(1, max(0, x)) in the spec. -/
def clamp01 (x : ℚ) : ℚ := min 1 (max 0 x)

/-- From app/services/indices.py:
`min(1.0, max(0.0, 0.4*(1-accuracy)+0.3*norm_time+0.2*skip_rate+0.1*sensory_mismatch))`. -/
def calc_overload_index (accuracy norm_time skip_rate sensory_mismatch : ℚ) : ℚ :=
  min 1.0 (max 0.0 (0.4*(1-accuracy) + 0.3*norm_time + 0.2*skip_rate + 0.1*sensory_mismatch))

/-- From app/services/indices.py:
`min(1.0, max(0.0, 0.5*accuracy + 0.3*(1-norm_time) + 0.2*(1-fatigue_proxy)))`. -/
def calc_readiness_index (accuracy norm_time fatigue_proxy : ℚ) : ℚ :=
  min 1.0 (max 0.0 (0.5*accuracy + 0.3*(1-norm_time) + 0.2*(1-fatigue_proxy)))

/-- A recommendation: a machine-readable action tag plus a human-readable
explanation text, as returned by app/services/recommendations.py. The code's
action tags are the Russian strings; the spec refers to them by the English
glosses "reduce difficulty" / "increase difficulty" / "maintain". -/
structure Recommendation where
  action : String
  text : String
deriving DecidableEq

/-- From app/services/recommendations.py: threshold classifier, first match wins. -/
def make_recommendation (overload_index readiness_index : ℚ) : Recommendation :=
  if overload_index > 0.7 then
    ⟨"Снизить сложность", "Высокая перегрузка: снизьте сложность"⟩
  else if readiness_index > 0.7 then
    ⟨"Повысить сложность", "Готовность высокая: можно усложнить задания"⟩
  else
    ⟨"Оставить как есть", "Нагрузка в норме"⟩

/-- Claim C1, counterexample: with all four inputs equal to 1 the weighted sum is
0.4·(1−1) + 0.3 + 0.2 + 0.1 = 0.6, so the result is 3/5, not 1.0 — the clamp
never engages there. -/
theorem overload_all_ones_counterexample :
    calc_overload_index 1 1 1 1 = 3/5 ∧ calc_overload_index 1 1 1 1 ≠ 1 := by
  constructor <;> norm_num [calc_overload_index, min_def, max_def]

/-- Claim C1 (amended): for all inputs in [0,1], `calc_overload_index` returns
clamp01(0.4·(1−accuracy) + 0.3·norm_time + 0.2·skip_rate + 0.1·sensory_mismatch)
and the result lies in [0,1]; the upper clamp is attained exactly (result = 1.0)
at accuracy = 0 with the other three inputs equal to 1. -/
theorem overload_index_spec :
    (∀ a n s m : ℚ, 0 ≤ a → a ≤ 1 → 0 ≤ n → n ≤ 1 → 0 ≤ s → s ≤ 1 → 0 ≤ m → m ≤ 1 →
      calc_overload_index a n s m = clamp01 (0.4*(1-a) + 0.3*n + 0.2*s + 0.1*m) ∧
      0 ≤ calc_overload_index a n s m ∧ calc_overload_index a n s m ≤ 1) ∧
    calc_overload_index 0 1 1 1 = 1 := by
  constructor
  · intro a n s m _ _ _ _ _ _ _ _
    refine ⟨by norm_num [calc_overload_index, clamp01], ?_, ?_⟩
    · unfold calc_overload_index
      exact le_min (by norm_num) (le_max_of_le_left (by norm_num))
    · unfold calc_overload_index
      exact le_trans (min_le_left _ _) (by norm_num)
  · norm_num [calc_overload_index, min_def, max_def]

/-- Claim C1, witness for the hypotheses of `overload_index_spec`. -/
theorem overload_index_spec_witness :
    calc_overload_index (1/2) (1/2) (1/2) (1/2)
      = clamp01 (0.4*(1-(1/2:ℚ)) + 0.3*(1/2) + 0.2*(1/2) + 0.1*(1/2)) ∧
    0 ≤ calc_overload_index (1/2) (1/2) (1/2) (1/2) ∧
    calc_overload_index (1/2) (1/2) (1/2) (1/2) ≤ 1 :=
  overload_index_spec.1 (1/2) (1/2) (1/2) (1/2)
    (by norm_num) (by norm_num) (by norm_num) (by norm_num)
    (by norm_num) (by norm_num) (by norm_num) (by norm_num)

/-- Claim C7: `make_recommendation` is a pure function evaluated first-match-wins:
overload > 0.7 gives the "reduce difficulty" tag (code string "Снизить сложность");
otherwise readiness > 0.7 gives "increase difficulty" ("Повысить сложность");
otherwise "maintain" ("Оставить как есть"); each with its explanation text.
At overload = 0.71, readiness = 0.9 the overload branch wins. -/
theorem make_recommendation_thresholds :
    (∀ o r : ℚ,
      (o > 0.7 → make_recommendation o r =
        ⟨"Снизить сложность", "Высокая перегрузка: снизьте сложность"⟩) ∧
      (¬ o > 0.7 → r > 0.7 → make_recommendation o r =
        ⟨"Повысить сложность", "Готовность высокая: можно усложнить задания"⟩) ∧
      (¬ o > 0.7 → ¬ r > 0.7 → make_recommendation o r =
        ⟨"Оставить как есть", "Нагрузка в норме"⟩)) ∧
    make_recommendation 0.71 0.9 =
      ⟨"Снизить сложность", "Высокая перегрузка: снизьте сложность"⟩ := by
  refine ⟨fun o r => ⟨fun h => ?_, fun h1 h2 => ?_, fun h1 h2 => ?_⟩, ?_⟩
  · simp [make_recommendation, h]
  · simp [make_recommendation, h1, h2]
  · simp [make_recommendation, h1, h2]
  · norm_num [make_recommendation]

/-- Claim C7, witness for the hypotheses of `make_recommendation_thresholds`. -/
theorem make_recommendation_thresholds_witness :
    make_recommendation 0.8 0.9 =
      ⟨"Снизить сложность", "Высокая перегрузка: снизьте сложность"⟩ ∧
    make_recommendation 0.1 0.9 =
      ⟨"Повысить сложность", "Готовность высокая: можно усложнить задания"⟩ ∧
    make_recommendation 0.1 0.2 = ⟨"Оставить как есть", "Нагрузка в норме"⟩ :=
  ⟨(make_recommendation_thresholds.1 0.8 0.9).1 (by norm_num),
   (make_recommendation_thresholds.1 0.1 0.9).2.1 (by norm_num) (by norm_num),
   (make_recommendation_thresholds.1 0.1 0.2).2.2 (by norm_num) (by norm_num)⟩

/-- Claim C8: readiness index extremes are exact — (1,0,0) gives exactly 1 and
(0,1,1) gives exactly 0 — and for all inputs the function equals
clamp01(0.5·accuracy + 0.3·(1−norm_time) + 0.2·(1−fatigue_proxy)). -/
theorem readiness_index_extremes :
    calc_readiness_index 1 0 0 = 1 ∧ calc_readiness_index 0 1 1 = 0 ∧
    ∀ a n f : ℚ, calc_readiness_index a n f = clamp01 (0.5*a + 0.3*(1-n) + 0.2*(1-f)) := by
  refine ⟨by norm_num [calc_readiness_index, min_def, max_def],
    by norm_num [calc_readiness_index, min_def, max_def], fun a n f => ?_⟩
  norm_num [calc_readiness_index, clamp01]

namespace Board

/-- A drawing action on the wire. The `ty` field models `data.get("type")`
(`none` when the JSON object has no "type" key); the rest of the JSON object
(coordinates, tool, anything else) is opaque to the relay and modelled by
`payload`. -/
structure BoardAction where
  ty : Option String
  payload : Nat
deriving DecidableEq

/-- Session identifier (the `lesson_block_id` path parameter). -/
abbrev Sid := String

/-- A participant connection (one accepted websocket object). -/
abbrev Participant := Nat

/-- The relay state: the two module-level dictionaries of app/main.py,
`board_connections` and `board_states`. Python dictionaries preserve insertion
order, so each is an association list; a write to a present key replaces in
place and a fresh key is appended at the end. -/
structure Hub where
  board_connections : List (Sid × List Participant)
  board_states : List (Sid × List BoardAction)
deriving DecidableEq

/-- Dictionary membership test, `k in d`. -/
def hasKey {α : Type} : List (Sid × α) → Sid → Bool
  | [], _ => false
  | (k1, _) :: t, k => k1 == k || hasKey t k

/-- Dictionary read `d[k]`, with a default for the absent-key case that the
Python code never reaches (it would raise KeyError there). -/
def getD {α : Type} : List (Sid × α) → Sid → α → α
  | [], _, d => d
  | (k1, v) :: t, k, d => if k1 == k then v else getD t k d

/-- Dictionary write `d[k] = v` for a key already present (absent keys are
only ever created by `ensure` below, which appends): the entry at the key is
replaced in place, every other entry and the order are untouched. -/
def setK {α : Type} : List (Sid × α) → Sid → α → List (Sid × α)
  | [], _, _ => []
  | (k1, v1) :: t, k, v => (if k1 == k then (k, v) else (k1, v1)) :: setK t k v

/-- Dictionary key list, in insertion order. -/
def keys {α : Type} (m : List (Sid × α)) : List Sid := m.map Prod.fst

/-- Lazy creation of a session entry on first connect:
`if lesson_block_id not in board_connections: board_connections[id] = [];
board_states[id] = []`. -/
def ensure (hub : Hub) (sid : Sid) : Hub :=
  if hasKey hub.board_connections sid then hub
  else ⟨hub.board_connections ++ [(sid, [])], hub.board_states ++ [(sid, [])]⟩

/-- Connect handler of `board_ws`: accept, lazily create the session entry,
append the participant to the session's connection list, then replay the
session's history to this participant. Returns the new hub and the messages
sent, as (recipient, action) pairs in send order. -/
def connect (hub : Hub) (sid : Sid) (p : Participant) :
    Hub × List (Participant × BoardAction) :=
  let hub1 := ensure hub sid
  let hub2 : Hub :=
    ⟨setK hub1.board_connections sid (getD hub1.board_connections sid [] ++ [p]),
      hub1.board_states⟩
  (hub2, (getD hub2.board_states sid []).map (fun a => (p, a)))

/-- Receive handler of `board_ws`: on `{"type": "clear"}` reset the session's
history, otherwise append the action; then send the action to every connection
of the session other than the sender. -/
def receive (hub : Hub) (sid : Sid) (p : Participant) (a : BoardAction) :
    Hub × List (Participant × BoardAction) :=
  let hub1 : Hub :=
    if a.ty == some "clear" then ⟨hub.board_connections, setK hub.board_states sid []⟩
    else
      ⟨hub.board_connections,
        setK hub.board_states sid (getD hub.board_states sid [] ++ [a])⟩
  (hub1,
    ((getD hub1.board_connections sid []).filter (fun q => q != p)).map (fun q => (q, a)))

/-- Disconnect handler of `board_ws`:
`board_connections[lesson_block_id].remove(websocket)`, which removes the
first occurrence; `board_states` is untouched. -/
def disconnect (hub : Hub) (sid : Sid) (p : Participant) : Hub :=
  ⟨setK hub.board_connections sid ((getD hub.board_connections sid []).erase p),
    hub.board_states⟩

/-- One externally visible relay operation. -/
inductive BoardOp where
  | connect (sid : Sid) (p : Participant)
  | recv (sid : Sid) (p : Participant) (a : BoardAction)
  | disconnect (sid : Sid) (p : Participant)
deriving DecidableEq

/-- One step of the relay, returning the new hub and the messages sent. -/
def step (hub : Hub) : BoardOp → Hub × List (Participant × BoardAction)
  | .connect sid p => connect hub sid p
  | .recv sid p a => receive hub sid p a
  | .disconnect sid p => (disconnect hub sid p, [])

/-- Run a sequence of operations, accumulating the delivery trace. -/
def run (hub : Hub) : List BoardOp → Hub × List (Participant × BoardAction)
  | [] => (hub, [])
  | op :: ops =>
    let s := step hub op
    let r := run s.1 ops
    (r.1, s.2 ++ r.2)

/-- The initial state of the process: both dictionaries empty. -/
def emptyHub : Hub := ⟨[], []⟩

/-- The messages of a trace delivered to participant p, in delivery order. -/
def deliveredTo (trace : List (Participant × BoardAction)) (p : Participant) :
    List BoardAction :=
  (trace.filter (fun e => e.1 == p)).map Prod.snd

theorem getD_setK {α : Type} (m : List (Sid × α)) (k : Sid) (v d : α) :
    getD (setK m k v) k d = if hasKey m k then v else d := by
  induction m with
  | nil => rfl
  | cons hd t ih =>
    obtain ⟨k1, v1⟩ := hd
    by_cases h : (k1 == k) = true
    · rw [setK, if_pos h]
      simp [getD, hasKey, h]
    · have hk : (k1 == k) = false := by simpa using h
      rw [setK, if_neg h]
      simp [getD, hasKey, hk, ih]

theorem getD_setK_ne {α : Type} (m : List (Sid × α)) (k k2 : Sid) (v : α) (d : α)
    (hne : k ≠ k2) : getD (setK m k v) k2 d = getD m k2 d := by
  induction m with
  | nil => rfl
  | cons hd t ih =>
    obtain ⟨k1, v1⟩ := hd
    by_cases h : (k1 == k) = true
    · have h1 : k1 = k := eq_of_beq h
      have h2 : (k == k2) = false := by simp [hne]
      have h3 : (k1 == k2) = false := by simp [h1, hne]
      rw [setK, if_pos h]
      simp [getD, h2, h3, ih]
    · rw [setK, if_neg h]
      simp [getD, ih]

theorem getD_of_not_hasKey {α : Type} (m : List (Sid × α)) (k : Sid) (d : α)
    (h : hasKey m k = false) : getD m k d = d := by
  induction m with
  | nil => rfl
  | cons hd t ih =>
    obtain ⟨k1, v1⟩ := hd
    simp only [hasKey, Bool.or_eq_false_iff] at h
    simp [getD, h.1, ih h.2]

theorem keys_setK {α : Type} (m : List (Sid × α)) (k : Sid) (v : α) :
    keys (setK m k v) = keys m := by
  induction m with
  | nil => rfl
  | cons hd t ih =>
    obtain ⟨k1, v1⟩ := hd
    by_cases h : (k1 == k) = true
    · have h1 : k1 = k := eq_of_beq h
      rw [setK, if_pos h]
      simp only [keys, List.map_cons] at ih ⊢
      simp [h1, ih]
    · rw [setK, if_neg h]
      simp only [keys, List.map_cons] at ih ⊢
      simp [ih]

theorem hasKey_append_self {α : Type} (m : List (Sid × α)) (k : Sid) (v : α) :
    hasKey (m ++ [(k, v)]) k = true := by
  induction m with
  | nil => simp [hasKey]
  | cons hd t ih => simp [hasKey, ih]

theorem hasKey_ensure (hub : Hub) (sid : Sid) :
    hasKey (ensure hub sid).board_connections sid = true := by
  unfold ensure
  by_cases h : hasKey hub.board_connections sid = true
  · rw [if_pos h]; exact h
  · rw [if_neg h]; exact hasKey_append_self _ _ _

theorem ensure_of_hasKey (hub : Hub) (sid : Sid)
    (h : hasKey hub.board_connections sid = true) : ensure hub sid = hub := by
  simp [ensure, h]

end Board

namespace Board

theorem connect_out (hub : Hub) (sid : Sid) (p : Participant) :
    (connect hub sid p).2
      = (getD (ensure hub sid).board_states sid []).map (fun a => (p, a)) := rfl

theorem connect_states (hub : Hub) (sid : Sid) (p : Participant) :
    (connect hub sid p).1.board_states = (ensure hub sid).board_states := rfl

theorem connect_conns (hub : Hub) (sid : Sid) (p : Participant) :
    getD (connect hub sid p).1.board_connections sid []
      = getD (ensure hub sid).board_connections sid [] ++ [p] := by
  show getD (setK (ensure hub sid).board_connections sid _) sid [] = _
  rw [getD_setK, if_pos (hasKey_ensure hub sid)]

theorem receive_conns (hub : Hub) (sid : Sid) (p : Participant) (a : BoardAction) :
    (receive hub sid p a).1.board_connections = hub.board_connections := by
  by_cases h : (a.ty == some "clear") = true
  · simp only [receive]; rw [if_pos h]
  · simp only [receive]; rw [if_neg h]

theorem receive_out (hub : Hub) (sid : Sid) (p : Participant) (a : BoardAction) :
    (receive hub sid p a).2
      = ((getD hub.board_connections sid []).filter (fun q => q != p)).map
          (fun q => (q, a)) := by
  by_cases h : (a.ty == some "clear") = true
  · simp only [receive]; rw [if_pos h]
  · simp only [receive]; rw [if_neg h]

theorem receive_states_clear (hub : Hub) (sid : Sid) (p : Participant)
    (a : BoardAction) (hty : a.ty = some "clear")
    (hs : hasKey hub.board_states sid = true) :
    getD (receive hub sid p a).1.board_states sid [] = [] := by
  have h : (a.ty == some "clear") = true := by simp [hty]
  simp only [receive]
  rw [if_pos h]
  show getD (setK hub.board_states sid []) sid [] = []
  rw [getD_setK, if_pos hs]

theorem receive_states_append (hub : Hub) (sid : Sid) (p : Participant)
    (a : BoardAction) (hty : ¬ a.ty = some "clear")
    (hs : hasKey hub.board_states sid = true) :
    getD (receive hub sid p a).1.board_states sid []
      = getD hub.board_states sid [] ++ [a] := by
  have h : ¬ (a.ty == some "clear") = true := by simpa using hty
  simp only [receive]
  rw [if_neg h]
  show getD (setK hub.board_states sid _) sid [] = _
  rw [getD_setK, if_pos hs]

theorem keys_receive_states (hub : Hub) (sid : Sid) (p : Participant)
    (a : BoardAction) :
    keys (receive hub sid p a).1.board_states = keys hub.board_states := by
  by_cases h : (a.ty == some "clear") = true
  · simp only [receive]
    rw [if_pos h]
    exact keys_setK _ _ _
  · simp only [receive]
    rw [if_neg h]
    exact keys_setK _ _ _

theorem deliveredTo_map_pair (l : List Participant) (p : Participant)
    (a : BoardAction) (h : ∀ q ∈ l, (q == p) = false) :
    deliveredTo (l.map (fun q => (q, a))) p = [] := by
  induction l with
  | nil => rfl
  | cons q t ih =>
    have hq := h q (List.mem_cons_self q t)
    have ih2 := ih (fun q2 hq2 => h q2 (List.mem_cons_of_mem _ hq2))
    simp only [deliveredTo, List.map_cons, List.filter_cons] at ih2 ⊢
    simp [hq, ih2]

theorem deliveredTo_filter_broadcast (l : List Participant) (p : Participant)
    (a : BoardAction) :
    deliveredTo ((l.filter (fun q => q != p)).map (fun q => (q, a))) p = [] := by
  apply deliveredTo_map_pair
  intro q hq
  have h1 : (q != p) = true := (List.mem_filter.mp hq).2
  have h2 : q ≠ p := by simpa using h1
  simp [h2]

/-- A first stroke action used in the concrete relay runs. -/
def act1 : BoardAction := ⟨some "start", 1⟩

/-- A second stroke action used in the concrete relay runs. -/
def act2 : BoardAction := ⟨some "draw", 2⟩

/-- A third stroke action used in the concrete relay runs. -/
def act3 : BoardAction := ⟨some "draw", 3⟩

/-- A clear action. -/
def clearAct : BoardAction := ⟨some "clear", 0⟩

/-- An action of an unrecognized type, relayed opaquely. -/
def oddAct : BoardAction := ⟨some "wobble", 7⟩

/-- Scenario for C2: P1 connects, draws act1 and act2, P2 connects, then P1
draws act3. -/
def c2ops : List BoardOp :=
  [.connect "s" 1, .recv "s" 1 act1, .recv "s" 1 act2, .connect "s" 2,
   .recv "s" 1 act3]

/-- Scenario for C4: P1 connects and draws act1, P2 connects, P1 clears, then
P3 connects. -/
def c4ops : List BoardOp :=
  [.connect "s" 1, .recv "s" 1 act1, .connect "s" 2, .recv "s" 1 clearAct,
   .connect "s" 3]

/-- A concrete hub with one session "s" holding participants 1, 2, 3 and a
one-action history. -/
def c3hub : Hub := ⟨[("s", [1, 2, 3])], [("s", [act1])]⟩

/-- A concrete hub with two sessions. -/
def c9hub : Hub := ⟨[("s", [1, 2]), ("t", [5])], [("s", [act1])]⟩

/-- Claim C2: on connect, the relay registers the participant (appending it to
the session's connection list) and replays the full ordered history to exactly
that participant; in the concrete run, P1 connects, draws act1 and act2, P2
connects, then P1 draws act3: the whole delivery trace is act1, act2 to P2
(the replay) followed by act3, so P2 receives [act1, act2] in original order
before any further message, and P1 receives nothing back. -/
theorem connect_replays_history :
    (∀ (hub : Hub) (sid : Sid) (p : Participant),
      (connect hub sid p).2
          = (getD (ensure hub sid).board_states sid []).map (fun a => (p, a)) ∧
      getD (connect hub sid p).1.board_connections sid []
          = getD (ensure hub sid).board_connections sid [] ++ [p] ∧
      (connect hub sid p).1.board_states = (ensure hub sid).board_states) ∧
    (run emptyHub c2ops).2 = [(2, act1), (2, act2), (2, act3)] ∧
    deliveredTo (run emptyHub c2ops).2 2 = [act1, act2, act3] ∧
    deliveredTo (run emptyHub c2ops).2 1 = [] := by
  exact ⟨fun hub sid p =>
    ⟨connect_out hub sid p, connect_conns hub sid p, connect_states hub sid p⟩,
    by decide, by decide, by decide⟩

/-- Claim C3: a non-clear action (any `type` other than "clear", unrecognized
and absent types included) received from a participant of a session is
appended to that session's history and broadcast verbatim to every other
currently-registered participant; the sender never receives its own action. -/
theorem receive_appends_and_broadcasts (hub : Hub) (sid : Sid) (p : Participant)
    (a : BoardAction) (hty : ¬ a.ty = some "clear")
    (hs : hasKey hub.board_states sid = true) :
    getD (receive hub sid p a).1.board_states sid []
        = getD hub.board_states sid [] ++ [a] ∧
    (receive hub sid p a).1.board_connections = hub.board_connections ∧
    (receive hub sid p a).2
        = ((getD hub.board_connections sid []).filter (fun q => q != p)).map
            (fun q => (q, a)) ∧
    deliveredTo (receive hub sid p a).2 p = [] := by
  refine ⟨receive_states_append hub sid p a hty hs, receive_conns hub sid p a,
    receive_out hub sid p a, ?_⟩
  rw [receive_out]
  exact deliveredTo_filter_broadcast _ _ _

/-- Claim C3, witness: participant 1 of session "s" sends an action of the
unrecognized type "wobble"; it is appended and relayed to participants 2 and 3
only. -/
theorem receive_appends_and_broadcasts_witness :
    getD (receive c3hub "s" 1 oddAct).1.board_states "s" []
        = getD c3hub.board_states "s" [] ++ [oddAct] ∧
    (receive c3hub "s" 1 oddAct).1.board_connections = c3hub.board_connections ∧
    (receive c3hub "s" 1 oddAct).2
        = ((getD c3hub.board_connections "s" []).filter (fun q => q != 1)).map
            (fun q => (q, oddAct)) ∧
    deliveredTo (receive c3hub "s" 1 oddAct).2 1 = [] :=
  receive_appends_and_broadcasts c3hub "s" 1 oddAct (by decide) (by decide)

/-- Claim C4: a "clear" action resets the session's history to empty and is
not itself appended, so any participant connecting afterwards receives an
empty replay; in the concrete run P1 draws act1, P2 joins, P1 clears, then P3
joins and is delivered nothing at all. -/
theorem clear_resets_history :
    (∀ (hub : Hub) (sid : Sid) (p : Participant) (a : BoardAction),
      a.ty = some "clear" →
      hasKey hub.board_connections sid = true →
      hasKey hub.board_states sid = true →
      getD (receive hub sid p a).1.board_states sid [] = [] ∧
      ∀ q, (connect (receive hub sid p a).1 sid q).2 = []) ∧
    deliveredTo (run emptyHub c4ops).2 3 = [] := by
  refine ⟨fun hub sid p a hty hc hs =>
    ⟨receive_states_clear hub sid p a hty hs, fun q => ?_⟩, by decide⟩
  rw [connect_out]
  have h2 : hasKey (receive hub sid p a).1.board_connections sid = true := by
    rw [receive_conns]; exact hc
  rw [ensure_of_hasKey _ _ h2, receive_states_clear hub sid p a hty hs]
  rfl

/-- Claim C4, witness: participant 1 of session "s" sends clear; the history
becomes empty and a later joiner 9 receives an empty replay. -/
theorem clear_resets_history_witness :
    getD (receive c3hub "s" 1 clearAct).1.board_states "s" [] = [] ∧
    (connect (receive c3hub "s" 1 clearAct).1 "s" 9).2 = [] :=
  ⟨(clear_resets_history.1 c3hub "s" 1 clearAct (by decide) (by decide)
      (by decide)).1,
   (clear_resets_history.1 c3hub "s" 1 clearAct (by decide) (by decide)
      (by decide)).2 9⟩

/-- Claim C9: disconnect removes exactly that participant (the first and, for
distinct websocket objects, only occurrence) from the session's connection
list; the session history dictionary is untouched, and the connection lists of
all other sessions are untouched. -/
theorem disconnect_removes_only_participant (hub : Hub) (sid : Sid)
    (p : Participant) :
    (disconnect hub sid p).board_states = hub.board_states ∧
    getD (disconnect hub sid p).board_connections sid []
        = (getD hub.board_connections sid []).erase p ∧
    ∀ sid2, sid2 ≠ sid →
      getD (disconnect hub sid p).board_connections sid2 []
          = getD hub.board_connections sid2 [] := by
  refine ⟨rfl, ?_, ?_⟩
  · show getD (setK hub.board_connections sid _) sid [] = _
    rw [getD_setK]
    by_cases h : hasKey hub.board_connections sid = true
    · rw [if_pos h]
    · rw [if_neg h]
      have h2 : hasKey hub.board_connections sid = false := by simpa using h
      rw [getD_of_not_hasKey _ _ _ h2]
      rfl
  · intro sid2 hne
    show getD (setK hub.board_connections sid _) sid2 [] = _
    exact getD_setK_ne _ _ _ _ _ (Ne.symm hne)

/-- Claim C9, witness: participant 1 leaves session "s" of a two-session hub;
histories and session "t" are untouched. -/
theorem disconnect_removes_only_participant_witness :
    (disconnect c9hub "s" 1).board_states = c9hub.board_states ∧
    getD (disconnect c9hub "s" 1).board_connections "t" []
        = getD c9hub.board_connections "t" [] :=
  ⟨(disconnect_removes_only_participant c9hub "s" 1).1,
   (disconnect_removes_only_participant c9hub "s" 1).2.2 "t" (by decide)⟩

/-- The session keys a step adds: a connect on a fresh session key adds that
key (to both dictionaries), every other operation adds none. -/
def stepExtra (hub : Hub) : BoardOp → List Sid
  | .connect sid _ => if hasKey hub.board_connections sid then [] else [sid]
  | .recv _ _ _ => []
  | .disconnect _ _ => []

theorem step_keys (hub : Hub) (op : BoardOp) :
    keys (step hub op).1.board_connections
        = keys hub.board_connections ++ stepExtra hub op ∧
    keys (step hub op).1.board_states
        = keys hub.board_states ++ stepExtra hub op := by
  cases op with
  | connect sid p =>
    by_cases h : hasKey hub.board_connections sid = true
    · constructor
      · show keys (setK (ensure hub sid).board_connections sid _) = _
        rw [keys_setK, ensure_of_hasKey _ _ h]
        simp [stepExtra, h]
      · show keys (ensure hub sid).board_states = _
        rw [ensure_of_hasKey _ _ h]
        simp [stepExtra, h]
    · have h2 : ensure hub sid
          = ⟨hub.board_connections ++ [(sid, [])],
             hub.board_states ++ [(sid, [])]⟩ := by
        simp [ensure, h]
      constructor
      · show keys (setK (ensure hub sid).board_connections sid _) = _
        rw [keys_setK, h2]
        simp [keys, stepExtra, h]
      · show keys (ensure hub sid).board_states = _
        rw [h2]
        simp [keys, stepExtra, h]
  | recv sid p a =>
    constructor
    · show keys (receive hub sid p a).1.board_connections = _
      rw [receive_conns]
      simp [stepExtra]
    · show keys (receive hub sid p a).1.board_states = _
      rw [keys_receive_states]
      simp [stepExtra]
  | disconnect sid p =>
    constructor
    · show keys (setK hub.board_connections sid _) = _
      rw [keys_setK]
      simp [stepExtra]
    · simp [step, Board.disconnect, stepExtra]

theorem run_keys_eq (ops : List BoardOp) :
    ∀ hub : Hub, keys hub.board_connections = keys hub.board_states →
      keys (run hub ops).1.board_connections
        = keys (run hub ops).1.board_states := by
  induction ops with
  | nil => intro hub h; exact h
  | cons op t ih =>
    intro hub h
    show keys (run (step hub op).1 t).1.board_connections = _
    exact ih _ (by rw [(step_keys hub op).1, (step_keys hub op).2, h])

/-- Claim C10: starting from the empty hub, after any sequence of operations
the two dictionaries `board_connections` and `board_states` have exactly the
same key list (created together on first connect), and no single step ever
removes a session key from either dictionary, so a session entry persists for
the process lifetime even after all participants leave. -/
theorem hub_keys_invariant :
    (∀ ops : List BoardOp,
      keys (run emptyHub ops).1.board_connections
        = keys (run emptyHub ops).1.board_states) ∧
    (∀ (hub : Hub) (op : BoardOp) (sid : Sid),
      sid ∈ keys hub.board_connections →
      sid ∈ keys (step hub op).1.board_connections) ∧
    (∀ (hub : Hub) (op : BoardOp) (sid : Sid),
      sid ∈ keys hub.board_states →
      sid ∈ keys (step hub op).1.board_states) := by
  refine ⟨fun ops => run_keys_eq ops emptyHub rfl, ?_, ?_⟩
  · intro hub op sid hmem
    rw [(step_keys hub op).1]
    exact List.mem_append_left _ hmem
  · intro hub op sid hmem
    rw [(step_keys hub op).2]
    exact List.mem_append_left _ hmem

/-- Claim C10, witness: in the two-session hub, session "s" is still a key of
both dictionaries after its last participants leave. -/
theorem hub_keys_invariant_witness :
    "s" ∈ keys (step c9hub (.disconnect "s" 1)).1.board_connections ∧
    "s" ∈ keys (step c9hub (.disconnect "s" 1)).1.board_states :=
  ⟨hub_keys_invariant.2.1 c9hub (.disconnect "s" 1) "s" (by decide),
   hub_keys_invariant.2.2 c9hub (.disconnect "s" 1) "s" (by decide)⟩

end Board

namespace Pipeline

/-- A lesson block row (app/models.py LessonBlock); uuids are strings, times
are naturals. -/
structure LessonBlock where
  id : String
  student_id : String
  started_at : Nat
  finished_at : Option Nat
deriving DecidableEq

/-- A task event row (app/models.py TaskEvent). The table has no timestamp
column; the spec's Metrics Aggregator (§4.1) nevertheless derives a duration
from event timestamps, so the model carries one for `compute_block_metrics`. -/
structure TaskEvent where
  student_id : String
  task_id : String
  lesson_block_id : String
  event_type : String
  is_correct : Option Bool
  timestamp : ℚ
deriving DecidableEq

/-- A neuro profile row (app/models.py NeuroProfile), restricted to the
fields the pipeline reads. -/
structure NeuroProfile where
  student_id : String
  processing_speed : ℚ
  sensory_sensitivity : ℚ
deriving DecidableEq

/-- A block index row (app/models.py BlockIndex). -/
structure BlockIndex where
  lesson_block_id : String
  overload_index : ℚ
  readiness_index : ℚ
deriving DecidableEq

/-- The persistent store: the four tables the pipeline touches. -/
structure Store where
  lesson_blocks : List LessonBlock
  task_events : List TaskEvent
  neuro_profiles : List NeuroProfile
  block_indices : List BlockIndex
deriving DecidableEq

/-- An HTTPException(status_code, detail). -/
structure HTTPError where
  status : Nat
  detail : String
deriving DecidableEq

/-- The summary statistics produced by the Metrics Aggregator. -/
structure Metrics where
  accuracy : ℚ
  skip_rate : ℚ
  duration : ℚ
deriving DecidableEq

/-- Modelled from the spec: `compute_block_metrics` lives in
app/services/metrics.py, which is not among the available sources. Spec §4.1:
accuracy is correct answers over answer events (0 when there is no answer
event, the documented-convention boundary case), skip_rate is skip events
over all events, and duration is the last timestamp minus the first, clamped
to be nonnegative. -/
def compute_block_metrics (events : List TaskEvent) : Metrics :=
  let answers := events.filter (fun e => e.event_type == "answer")
  let correct := answers.filter (fun e => e.is_correct == some true)
  let accuracy : ℚ :=
    if answers.length = 0 then 0 else (correct.length : ℚ) / (answers.length : ℚ)
  let skips := events.filter (fun e => e.event_type == "skip")
  let skip_rate : ℚ :=
    if events.length = 0 then 0 else (skips.length : ℚ) / (events.length : ℚ)
  let ts := events.map (fun e => e.timestamp)
  ⟨accuracy, skip_rate, max 0 ((ts.getLast?.getD 0) - (ts.head?.getD 0))⟩

/-- Modelled from the spec: `normalize_time` lives in app/services/profiling.py,
which is not among the available sources. Spec §4.2: the duration is scaled
inversely by processing_speed and clamped into [0,1]; the exact scaling
constant is a tunable policy, taken here as the 1800 seconds that main.py
itself uses for the fatigue proxy. No claim settled below depends on this
choice. -/
def normalize_time (duration processing_speed : ℚ) : ℚ :=
  min 1 (max 0 (duration / (1800 * processing_speed)))

/-- One scoring component, for recording execution order. -/
inductive Component where
  | aggregator
  | normalizer
  | indexCalc
  | recommender
deriving DecidableEq

/-- The payload of a successful finish. -/
structure FinishResult where
  overload_index : ℚ
  readiness_index : ℚ
  recommendation : Recommendation
deriving DecidableEq

/-- The finish endpoint of app/main.py (`finish_block`), over the store model;
`now` is datetime.utcnow(). Besides the HTTP outcome it returns the store
after the call and the trace of scoring components run, in the execution
order of the source: the block query (404 "lesson block not found" if absent),
the events query (400 "no events" if empty), compute_block_metrics, the
profile query (400 "neuro profile not found" if absent), normalize_time, the
two index calculations, the BlockIndex insert together with the finished_at
stamp and the commit, and finally make_recommendation. -/
def finish_block (db : Store) (block_id : String) (now : Nat) :
    Except HTTPError FinishResult × Store × List Component :=
  match db.lesson_blocks.find? (fun b => b.id == block_id) with
  | none => (.error ⟨404, "lesson block not found"⟩, db, [])
  | some block =>
    let events := db.task_events.filter (fun e => e.lesson_block_id == block_id)
    if events.isEmpty then (.error ⟨400, "no events"⟩, db, [])
    else
      let metrics := compute_block_metrics events
      match db.neuro_profiles.find? (fun pr => pr.student_id == block.student_id) with
      | none => (.error ⟨400, "neuro profile not found"⟩, db, [.aggregator])
      | some profile =>
        let norm_time := normalize_time metrics.duration profile.processing_speed
        let sensory_mismatch := |0.5 - (1 - profile.sensory_sensitivity)|
        let fatigue_proxy := min (metrics.duration / 1800) 1.0
        let overload := calc_overload_index metrics.accuracy norm_time
          metrics.skip_rate sensory_mismatch
        let readiness := calc_readiness_index metrics.accuracy norm_time
          fatigue_proxy
        let idx : BlockIndex := ⟨block.id, overload, readiness⟩
        let db2 : Store :=
          { db with
            lesson_blocks := db.lesson_blocks.map (fun b =>
              if b.id == block_id then { b with finished_at := some now } else b),
            block_indices := db.block_indices ++ [idx] }
        (.ok ⟨overload, readiness, make_recommendation overload readiness⟩, db2,
          [.aggregator, .normalizer, .indexCalc, .recommender])

/-- A store with a session "b1" of student "st1" and one correct answer event,
but no neuro profile. -/
def c5db : Store :=
  ⟨[⟨"b1", "st1", 0, none⟩],
   [⟨"st1", "t1", "b1", "answer", some true, 0⟩],
   [], []⟩

/-- The same store with the profile present (processing_speed 1, sensory
sensitivity 1/2). -/
def c5gooddb : Store :=
  ⟨[⟨"b1", "st1", 0, none⟩],
   [⟨"st1", "t1", "b1", "answer", some true, 0⟩],
   [⟨"st1", 1, 1/2⟩], []⟩

/-- Claim C5, counterexample: on a store where the session and an event exist
but the profile is missing, the call fails the third lookup with "neuro
profile not found", yet the Metrics Aggregator has already run — in the
source, compute_block_metrics is invoked between the events fetch and the
profile fetch, not after all three lookups succeed. -/
theorem aggregator_runs_before_profile_lookup :
    (finish_block c5db "b1" 0).1 = .error ⟨400, "neuro profile not found"⟩ ∧
    (finish_block c5db "b1" 0).2.2 = [.aggregator] := by
  constructor <;> rfl

/-- Claim C5 (amended): finish_block performs, in order: the Session lookup
(404 "lesson block not found" if absent, nothing else run), the events fetch
(400 "no events" if empty, nothing else run), the Metrics Aggregator, the
NeuroProfile fetch (400 "neuro profile not found" if absent, at which point
exactly the aggregator has run), and only then the Time Normalizer, Index
Calculator and Recommendation Engine, in that order. -/
theorem finish_block_step_order (db : Store) (block_id : String) (now : Nat) :
    (db.lesson_blocks.find? (fun b => b.id == block_id) = none →
      finish_block db block_id now
        = (.error ⟨404, "lesson block not found"⟩, db, [])) ∧
    (∀ block, db.lesson_blocks.find? (fun b => b.id == block_id) = some block →
      ((db.task_events.filter (fun e => e.lesson_block_id == block_id)).isEmpty
          = true →
        finish_block db block_id now = (.error ⟨400, "no events"⟩, db, [])) ∧
      ((db.task_events.filter (fun e => e.lesson_block_id == block_id)).isEmpty
          = false →
        (db.neuro_profiles.find? (fun pr => pr.student_id == block.student_id)
            = none →
          finish_block db block_id now
            = (.error ⟨400, "neuro profile not found"⟩, db,
               [Component.aggregator])) ∧
        (∀ profile,
          db.neuro_profiles.find? (fun pr => pr.student_id == block.student_id)
              = some profile →
          (finish_block db block_id now).2.2
            = [Component.aggregator, Component.normalizer, Component.indexCalc,
               Component.recommender]))) := by
  refine ⟨fun h => ?_,
    fun block hb => ⟨fun he => ?_, fun he => ⟨fun hp => ?_, fun profile hp => ?_⟩⟩⟩
  · simp [finish_block, h]
  · simp [finish_block, hb, he]
  · simp [finish_block, hb, he, hp]
  · simp [finish_block, hb, he, hp]

/-- Claim C5, witness for the hypotheses of `finish_block_step_order`: the
404 branch on the empty store, and the full-success trace on c5gooddb. -/
theorem finish_block_step_order_witness :
    finish_block ⟨[], [], [], []⟩ "b1" 0
      = (.error ⟨404, "lesson block not found"⟩, (⟨[], [], [], []⟩ : Store), []) ∧
    (finish_block c5gooddb "b1" 7).2.2
      = [Component.aggregator, Component.normalizer, Component.indexCalc,
         Component.recommender] :=
  ⟨(finish_block_step_order ⟨[], [], [], []⟩ "b1" 0).1 rfl,
   (((finish_block_step_order c5gooddb "b1" 7).2 ⟨"b1", "st1", 0, none⟩ rfl).2
      rfl).2 ⟨"st1", 1, 1/2⟩ rfl⟩

/-- Claim C6: if finish_block fails, it fails with one of the three specific
errors and performs no persistent mutation — the store comes back unchanged,
so no BlockIndex row is created and finished_at stays as it was; on success,
the BlockIndex insert and the finished_at stamp happen together: exactly one
index row for this block, carrying the returned indices, is appended, and the
block's finished_at is set to now. -/
theorem finish_block_atomicity (db : Store) (block_id : String) (now : Nat) :
    (∀ e, (finish_block db block_id now).1 = .error e →
      (finish_block db block_id now).2.1 = db ∧
      (e = ⟨404, "lesson block not found"⟩ ∨ e = ⟨400, "no events"⟩ ∨
        e = ⟨400, "neuro profile not found"⟩)) ∧
    (∀ res, (finish_block db block_id now).1 = .ok res →
      (finish_block db block_id now).2.1.block_indices
        = db.block_indices
            ++ [⟨block_id, res.overload_index, res.readiness_index⟩] ∧
      (finish_block db block_id now).2.1.lesson_blocks
        = db.lesson_blocks.map (fun b =>
            if b.id == block_id then { b with finished_at := some now }
            else b)) := by
  cases hfind : db.lesson_blocks.find? (fun b => b.id == block_id) with
  | none =>
    have hv : finish_block db block_id now
        = (.error ⟨404, "lesson block not found"⟩, db, []) := by
      simp [finish_block, hfind]
    refine ⟨fun e he => ?_, fun res hres => ?_⟩
    · rw [hv] at he ⊢
      simp only [Except.error.injEq] at he
      exact ⟨rfl, Or.inl he.symm⟩
    · rw [hv] at hres
      exact Except.noConfusion hres
  | some block =>
    cases hev :
        (db.task_events.filter (fun e => e.lesson_block_id == block_id)).isEmpty with
    | true =>
      have hv : finish_block db block_id now
          = (.error ⟨400, "no events"⟩, db, []) := by
        simp [finish_block, hfind, hev]
      refine ⟨fun e he => ?_, fun res hres => ?_⟩
      · rw [hv] at he ⊢
        simp only [Except.error.injEq] at he
        exact ⟨rfl, Or.inr (Or.inl he.symm)⟩
      · rw [hv] at hres
        exact Except.noConfusion hres
    | false =>
      cases hprof :
          db.neuro_profiles.find? (fun pr => pr.student_id == block.student_id) with
      | none =>
        have hv : finish_block db block_id now
            = (.error ⟨400, "neuro profile not found"⟩, db,
               [Component.aggregator]) := by
          simp [finish_block, hfind, hev, hprof]
        refine ⟨fun e he => ?_, fun res hres => ?_⟩
        · rw [hv] at he ⊢
          simp only [Except.error.injEq] at he
          exact ⟨rfl, Or.inr (Or.inr he.symm)⟩
        · rw [hv] at hres
          exact Except.noConfusion hres
      | some profile =>
        have hbid : block.id = block_id := by
          have h1 := List.find?_some hfind
          simpa using h1
        refine ⟨fun e he => ?_, fun res hres => ?_⟩
        · simp [finish_block, hfind, hev, hprof] at he
        · obtain ⟨rov, rrd, rrec⟩ := res
          simp only [finish_block, hfind, hev, hprof, Bool.false_eq_true,
            if_false, Except.ok.injEq, FinishResult.mk.injEq] at hres
          constructor
          · simp only [finish_block, hfind, hev, hprof, Bool.false_eq_true,
              if_false]
            rw [← hres.1, ← hres.2.1, hbid]
          · simp only [finish_block, hfind, hev, hprof, Bool.false_eq_true,
              if_false]

/-- Claim C6, witness for the hypotheses of `finish_block_atomicity`: the
profile-missing failure leaves c5db unchanged, and the successful finish on
c5gooddb (accuracy 1, duration 0) appends the index row ("b1", 0, 1). -/
theorem finish_block_atomicity_witness :
    (finish_block c5db "b1" 0).2.1 = c5db ∧
    (finish_block c5gooddb "b1" 7).2.1.block_indices
      = c5gooddb.block_indices ++ [⟨"b1", (0 : ℚ), (1 : ℚ)⟩] := by
  constructor
  · exact ((finish_block_atomicity c5db "b1" 0).1
      ⟨400, "neuro profile not found"⟩ rfl).1
  · have h := (finish_block_atomicity c5gooddb "b1" 7).2
      ⟨0, 1, ⟨"Повысить сложность", "Готовность высокая: можно усложнить задания"⟩⟩
      (by
        have hs : ("answer" == "skip") = false := by decide
        norm_num [finish_block, c5gooddb, compute_block_metrics,
          normalize_time, calc_overload_index, calc_readiness_index,
          make_recommendation, min_def, max_def, abs, List.filter, hs])
    exact h.1

end Pipeline
